import Mathlib

/-!
Verification development for `kcdl.py`, a crawler/downloader for a paginated
web activity feed.  The Python source is shallowly embedded: pure fragments
become Lean functions, the filesystem effects of the downloader become
explicit state passing over an `FS` record, and Python exceptions become
`Option`/`Except` results.  Page numbers and date components are `Nat`
(Python ints restricted to the nonnegative range the program uses), and
Python truthiness of an int is modelled as `≠ 0`.
-/

namespace Kcdl

/-! ## Python `datetime` model

`kcdl.py` stores `datetime.datetime` values produced by
`datetime.fromisoformat` (index resume path) and `datetime.strptime`
(HTML date cells).  Both always produce microsecond-0, timezone-naive
values here, so the model keeps year/month/day/hour/minute/second only. -/

structure PyDatetime where
  year : Nat
  month : Nat
  day : Nat
  hour : Nat
  minute : Nat
  second : Nat
deriving DecidableEq, Repr

/-- Leap-year test of the proleptic Gregorian calendar (Python `calendar.isleap`). -/
def isLeap (y : Nat) : Bool :=
  (y % 4 == 0 && y % 100 != 0) || y % 400 == 0

/-- Days in a month, as validated by the `datetime` constructor. -/
def daysInMonth (y m : Nat) : Nat :=
  if m = 2 then (if isLeap y then 29 else 28)
  else if m = 4 ∨ m = 6 ∨ m = 9 ∨ m = 11 then 30
  else 31

/-- The validity check performed by the Python `datetime.datetime` constructor:
`MINYEAR ≤ year ≤ MAXYEAR`, month and day in calendar range, time fields in
range.  (Microseconds are always 0 in this program and are not modelled.) -/
def validDT (dt : PyDatetime) : Prop :=
  1 ≤ dt.year ∧ dt.year ≤ 9999 ∧ 1 ≤ dt.month ∧ dt.month ≤ 12 ∧
  1 ≤ dt.day ∧ dt.day ≤ daysInMonth dt.year dt.month ∧
  dt.hour ≤ 23 ∧ dt.minute ≤ 59 ∧ dt.second ≤ 59

instance (dt : PyDatetime) : Decidable (validDT dt) := by
  unfold validDT; infer_instance

/-- `datetime.datetime(y, m, d, h, mi, s)`: validates and constructs,
`none` standing for the raised `ValueError`. -/
def mkDatetime (y m d h mi s : Nat) : Option PyDatetime :=
  let dt : PyDatetime := ⟨y, m, d, h, mi, s⟩
  if validDT dt then some dt else none

/-- Numeric value of an ASCII digit character, `none` otherwise. -/
def digitVal (c : Char) : Option Nat :=
  if '0' ≤ c ∧ c ≤ '9' then some (c.toNat - '0'.toNat) else none

/-- Two-digit zero-padded decimal rendering (`%02d`) for `n < 100`. -/
def pad2 (n : Nat) : List Char :=
  [Nat.digitChar (n / 10), Nat.digitChar (n % 10)]

def parse2 (a b : Char) : Option Nat := do
  let x ← digitVal a
  let y ← digitVal b
  pure (x * 10 + y)

/-- Character sequence of `datetime.isoformat()` for a microsecond-0 naive
value: `YYYY-MM-DDTHH:MM:SS` (the year rendered `%04d`, split here into two
`%02d` halves). -/
def isoChars (dt : PyDatetime) : List Char :=
  pad2 (dt.year / 100) ++ (pad2 (dt.year % 100) ++
    ('-' :: (pad2 dt.month ++ ('-' :: (pad2 dt.day ++
    ('T' :: (pad2 dt.hour ++ (':' :: (pad2 dt.minute ++
    (':' :: pad2 dt.second))))))))))

/-- `datetime.isoformat()`. -/
def isoformat (dt : PyDatetime) : String := ⟨isoChars dt⟩

/-- `datetime.fromisoformat`: accepts a calendar date `YYYY-MM-DD`, or a
date plus a one-character separator and a time `HH:MM:SS` (the forms this
program ever feeds it; fractional-second and partial-time forms are outside
the modelled domain).  `none` stands for the raised `ValueError`. -/
def fromisoformat (s : String) : Option PyDatetime :=
  match s.data with
  | [y1, y2, y3, y4, '-', m1, m2, '-', d1, d2] => do
      let yh ← parse2 y1 y2
      let yl ← parse2 y3 y4
      let m ← parse2 m1 m2
      let d ← parse2 d1 d2
      mkDatetime (yh * 100 + yl) m d 0 0 0
  | [y1, y2, y3, y4, '-', m1, m2, '-', d1, d2, _sep,
     h1, h2, ':', n1, n2, ':', s1, s2] => do
      let yh ← parse2 y1 y2
      let yl ← parse2 y3 y4
      let m ← parse2 m1 m2
      let d ← parse2 d1 d2
      let h ← parse2 h1 h2
      let mi ← parse2 n1 n2
      let sec ← parse2 s1 s2
      mkDatetime (yh * 100 + yl) m d h mi sec
  | _ => none

/-- Days from 1970-01-01 of a civil date (Hinnant's `days_from_civil`,
the arithmetic underlying epoch conversion; all intermediates computed in
`Nat`, the final epoch shift in `Int`). -/
def daysFromCivil (y m d : Nat) : Int :=
  let y' := if m ≤ 2 then y - 1 else y
  let era := y' / 400
  let yoe := y' - era * 400
  let mp := if m > 2 then m - 3 else m + 9
  let doy := (153 * mp + 2) / 5 + d - 1
  let doe := yoe * 365 + yoe / 4 - yoe / 100 + doy
  (Int.ofNat (era * 146097 + doe)) - 719468

/-- `datetime.timestamp()` of a naive value, the date interpreted as UTC
(Python applies the local timezone; the model fixes UTC, an offset the
claims do not depend on). -/
def pyTimestamp (dt : PyDatetime) : Int :=
  daysFromCivil dt.year dt.month dt.day * 86400 +
    Int.ofNat (dt.hour * 3600 + dt.minute * 60 + dt.second)

/-! ## The `Image` record (kcdl.py lines 19–37) -/

/-- `Image = namedtuple('Image', ['date', 'name', 'link'])`. -/
structure Image where
  date : PyDatetime
  name : String
  link : String
deriving DecidableEq, Repr

/-- The JSON-safe form of an `Image`: the dict produced by `to_json` and
consumed by `from_json` (fields `date`, `name`, `link`, all strings). -/
structure ImageJson where
  date : String
  name : String
  link : String
deriving DecidableEq, Repr

/-- `Image.from_json`: `Image(datetime.fromisoformat(d['date']), d['name'],
d['link'])`; `none` stands for the `ValueError` raised on a bad date string. -/
def Image.from_json (d : ImageJson) : Option Image := do
  let dt ← fromisoformat d.date
  pure ⟨dt, d.name, d.link⟩

/-- `Image.to_json`: the `_asdict()` copy with `date` replaced by
`self.date.isoformat()`. -/
def Image.to_json (i : Image) : ImageJson :=
  ⟨isoformat i.date, i.name, i.link⟩

/-! ## Destination paths (kcdl.py lines 17, 26–32, 99)

Python `Path` values are modelled as their segment lists; `Path(a, b, c)`
is `[a, b, c]`. -/

abbrev PyPath := List String

/-- `IMAGE_DIR = Path('downloads')`. -/
def IMAGE_DIR : String := "downloads"

/-- `Image.path`: `Path(IMAGE_DIR, str(self.date.year), str(self.date.month))`
(Python `str` of an int is its unpadded decimal rendering). -/
def Image.path (i : Image) : PyPath :=
  [IMAGE_DIR, Nat.repr i.date.year, Nat.repr i.date.month]

/-- `Image.filename`: `Path(self.path, self.name)`. -/
def Image.filename (i : Image) : PyPath :=
  i.path ++ [i.name]

/-- kcdl.py line 99: `path = Path(IMAGE_DIR, image.name) if flatten else
image.filename` — the path the response body is written to. -/
def download_dest (i : Image) (flatten : Bool) : PyPath :=
  if flatten then [IMAGE_DIR, i.name] else i.filename

/-! ## Page fetcher (kcdl.py lines 40–80)

The HTTP GET itself is an external collaborator; its pure ingredients are
modelled: the query-parameter construction, and the HTML-to-records
extraction over a queryable-tree model of the parsed document. -/

/-- The query-parameter dict built at kcdl.py lines 60–62:
`params = {}` / `if page_num: params['page'] = page_num`.
Python int truthiness: the parameter is added exactly when `page_num ≠ 0`. -/
def fetch_params (page_num : Nat) : List (String × Nat) :=
  if page_num ≠ 0 then [("page", page_num)] else []

/-- An `<a>` element as queried by the parser: its `href` and `download`
attributes.  (BeautifulSoup's `get` returns Python `None` for a missing
attribute, which the source would store silently; rows in the modelled
domain carry both attributes.) -/
structure Anchor where
  href : String
  download : String

/-- A `<td>` cell: its text, and its first `<a>` child if any
(`cell.a` is `None` when absent). -/
structure Cell where
  text : String
  a : Option Anchor

/-- A `<table>` element: its `<tbody>` child (absent `tbody` makes
`soup.table.tbody` an `AttributeError`), holding the `<tr>` rows as
cell lists. -/
structure Table where
  tbody : Option (List (List Cell))

/-- The parsed document: `soup.table` is the first table element or `None`. -/
structure Soup where
  table : Option Table

/-- `datetime.strptime(text, '%m/%d/%y')` on the feed's zero-padded
`MM/DD/YY` date cells; `%y` maps 00–68 to 2000–2068 and 69–99 to 1969–1999.
`none` stands for the raised `ValueError`. -/
def strptime_mdy (s : String) : Option PyDatetime :=
  match s.data with
  | [m1, m2, '/', d1, d2, '/', y1, y2] => do
      let m ← parse2 m1 m2
      let d ← parse2 d1 d2
      let yy ← parse2 y1 y2
      mkDatetime (if yy ≤ 68 then 2000 + yy else 1900 + yy) m d 0 0 0
  | _ => none

/-- One loop body of kcdl.py lines 73–79: `cells[1]` is the date cell
(IndexError on a short row), `cells[-1].a` the anchor (AttributeError when
missing), from which `href` becomes `link` and `download` becomes `name`.
`none` stands for any of those raised errors (the spec's `ParseError`). -/
def parse_row (cells : List Cell) : Option Image := do
  let dateCell ← cells.get? 1
  let lastCell ← cells.getLast?
  let anchor ← lastCell.a
  let dt ← strptime_mdy dateCell.text
  pure ⟨dt, anchor.download, anchor.href⟩

/-- The HTML-to-records part of `fetch_page` (kcdl.py lines 67–80): no
table element means past-the-last-page, an empty result and not an error;
otherwise every `tbody` row is extracted, the first malformed row raising
(`none`). -/
def fetch_page_parse (soup : Soup) : Option (List Image) :=
  match soup.table with
  | none => some []
  | some t =>
      match t.tbody with
      | none => none
      | some rows => rows.mapM parse_row

/-! ## Crawl loop (kcdl.py lines 162–172)

The loop `for page_num in itertools.count(start_page)` over an abstract
fetcher behaviour `fetch : Nat → List Image` (the records each page
yields).  The loop has no intrinsic bound, so it is given fuel; `none`
means the fuel ran out before the loop broke. -/

/-- The termination test at kcdl.py line 169: `if end_page and
page_num == end_page` — Python truthiness makes `None` and `0` both skip
the check. -/
def end_page_hit (end_page : Option Nat) (page_num : Nat) : Bool :=
  match end_page with
  | none => false
  | some e => e ≠ 0 && page_num == e

def crawl_loop (fetch : Nat → List Image) (end_page : Option Nat) :
    Nat → Nat → List Image → Option (List Image)
  | 0, _, _ => none
  | fuel + 1, page_num, images =>
      let page_images := fetch page_num
      if page_images.isEmpty then some images
      else if end_page_hit end_page page_num then some images
      else crawl_loop fetch end_page fuel (page_num + 1) (images ++ page_images)

/-- The whole crawl: accumulate from `start_page` until an empty page or
the end-page check breaks the loop. -/
def crawl (fetch : Nat → List Image) (start_page : Nat)
    (end_page : Option Nat) (fuel : Nat) : Option (List Image) :=
  crawl_loop fetch end_page fuel start_page []

/-! ## Index store (kcdl.py lines 106–124, 189–190) -/

/-- Python string `<`: lexicographic comparison by code point. -/
def pyCharLt (a b : Char) : Bool := a.toNat < b.toNat

def pyListLt : List Char → List Char → Bool
  | _, [] => false
  | [], _ :: _ => true
  | a :: as, b :: bs => pyCharLt a b || (a == b && pyListLt as bs)

def pyStrLt (a b : String) : Bool := pyListLt a.data b.data

/-- Python `min(list)`: `none` on an empty list (the raised `ValueError`),
otherwise a left fold keeping the current best, replaced only when a later
element is strictly smaller (ties keep the earlier element). -/
def pyMinBy (lt : α → α → Bool) : List α → Option α
  | [] => none
  | x :: xs => some (xs.foldl (fun best y => if lt y best then y else best) x)

/-- Python `max(list)` via the flipped comparison. -/
def pyMaxBy (lt : α → α → Bool) (l : List α) : Option α :=
  pyMinBy (fun a b => lt b a) l

/-- Chronological comparison of datetimes: lexicographic on
(year, month, day, hour, minute, second). -/
def dtLt (a b : PyDatetime) : Bool :=
  Nat.blt a.year b.year || (a.year == b.year &&
    (Nat.blt a.month b.month || (a.month == b.month &&
      (Nat.blt a.day b.day || (a.day == b.day &&
        (Nat.blt a.hour b.hour || (a.hour == b.hour &&
          (Nat.blt a.minute b.minute || (a.minute == b.minute &&
            Nat.blt a.second b.second)))))))))

/-- `write_index` raising on an empty image list (Python: `min([])` raises
`ValueError`; the spec's taxonomy names this condition `EmptyIndexError`). -/
inductive IndexError where
  | emptyIndex
deriving DecidableEq, Repr

/-- The JSON object written by `write_index`. -/
structure IndexJson where
  earliest : String
  latest : String
  images : List ImageJson
deriving DecidableEq, Repr

/-- kcdl.py lines 116–124: `earliest`/`latest` are `min`/`max` over the
images' `date.isoformat()` strings, and `images` the `to_json` forms. -/
def write_index (images : List Image) : Except IndexError IndexJson :=
  match pyMinBy pyStrLt (images.map fun i => isoformat i.date),
        pyMaxBy pyStrLt (images.map fun i => isoformat i.date) with
  | some earliest, some latest =>
      .ok ⟨earliest, latest, images.map Image.to_json⟩
  | _, _ => .error .emptyIndex

/-- The resume path's read-back (kcdl.py lines 189–190):
`[Image.from_json(i) for i in data['images']]`, the first bad record
raising (`none`). -/
def read_index_images (idx : IndexJson) : Option (List Image) :=
  idx.images.mapM Image.from_json

/-! ## Concurrent downloader (kcdl.py lines 82–104, 126–142)

Filesystem state is explicit: a set of directories and a map from file
paths to (atime, mtime) pairs (contents are irrelevant to the claims).
`now` is the wall-clock time stamped on a freshly written file.  The
thread pool of `download_images` is modelled as per-item sequential
execution; each item's outcome is collected (Python surfaces a failed
status as an echo and swallows an exception raised inside a worker). -/

structure FS where
  dirs : List PyPath
  files : List (PyPath × Int × Int)
deriving DecidableEq, Repr

/-- The nonempty prefixes of a path, shortest first. -/
def pathPrefixes (p : PyPath) : List PyPath :=
  (List.range p.length).map fun k => p.take (k + 1)

/-- `Path.mkdir(parents=True, exist_ok=True)`: create the directory and all
its ancestors, silently keeping those that already exist. -/
def mkdir_p (fs : FS) (p : PyPath) : FS :=
  { fs with dirs := fs.dirs ++ (pathPrefixes p).filter fun q => decide (q ∉ fs.dirs) }

/-- Writing the streamed response body to `path` (kcdl.py lines 101–102):
creates or truncates the file, which then carries the current wall time. -/
def write_file (fs : FS) (p : PyPath) (now : Int) : FS :=
  { fs with files := (p, now, now) :: fs.files.filter fun e => decide (e.1 ≠ p) }

/-- `os.utime(p, times=(t, t))`: sets both timestamps of an existing file
(or succeeds trivially on a directory, whose times are not tracked);
`none` stands for the raised `FileNotFoundError`. -/
def os_utime (fs : FS) (p : PyPath) (t : Int) : Option FS :=
  if p ∈ fs.files.map Prod.fst then
    some { fs with files := fs.files.map fun e => if e.1 = p then (p, t, t) else e }
  else if p ∈ fs.dirs then some fs
  else none

/-- Per-item result: `ok` a completed download, `failed` the echoed
non-success-status notice of kcdl.py lines 95–97, `raised` an exception
escaping `download_image` (swallowed by the executor's future). -/
inductive DlOutcome where
  | ok
  | failed (name : String) (status : Nat)
  | raised (msg : String)
deriving DecidableEq, Repr

/-- `download_image` (kcdl.py lines 82–104): on a non-200 status, record the
failure and return; otherwise make the partitioned directory, write the
body at the flatten-dependent destination, then `os.utime` — on
`image.filename`, the partitioned path, regardless of where the file was
written.  `status` is the HTTP status of the GET on `image.link`. -/
def download_image (image : Image) (flatten : Bool) (status : Nat)
    (now : Int) (fs : FS) : FS × DlOutcome :=
  if status ≠ 200 then (fs, .failed image.name status)
  else
    let path := download_dest image flatten
    let fs1 := mkdir_p fs image.path
    let fs2 := write_file fs1 path now
    match os_utime fs2 image.filename (pyTimestamp image.date) with
    | some fs3 => (fs3, .ok)
    | none => (fs2, .raised "FileNotFoundError")

/-- `download_images` (kcdl.py lines 126–142) over explicit per-item HTTP
statuses, the worker pool modelled as sequential per-item execution; every
item is processed and contributes exactly one outcome. -/
def download_images (items : List (Image × Nat)) (flatten : Bool)
    (now : Int) (fs : FS) : FS × List DlOutcome :=
  match items with
  | [] => (fs, [])
  | (image, status) :: rest =>
      let r1 := download_image image flatten status now fs
      let r2 := download_images rest flatten now r1.1
      (r2.1, r1.2 :: r2.2)

/-! ## Helper lemmas -/

lemma digitVal_digitChar : ∀ d < 10, digitVal (Nat.digitChar d) = some d := by
  decide

lemma parse2_pad2 (n : Nat) (h : n < 100) :
    parse2 (Nat.digitChar (n / 10)) (Nat.digitChar (n % 10)) = some n := by
  have h1 : n / 10 < 10 := by omega
  have h2 : n % 10 < 10 := by omega
  simp [parse2, digitVal_digitChar _ h1, digitVal_digitChar _ h2]
  omega

lemma daysInMonth_le (y m : Nat) : daysInMonth y m ≤ 31 := by
  unfold daysInMonth
  split
  · split <;> omega
  · split <;> omega

/-- The inverse direction of serialization: `fromisoformat` recovers any
valid datetime from its `isoformat` rendering. -/
lemma fromisoformat_isoformat (dt : PyDatetime) (h : validDT dt) :
    fromisoformat (isoformat dt) = some dt := by
  obtain ⟨y, m, d, hh, mi, s⟩ := dt
  simp only [validDT] at h
  obtain ⟨h1, h2, h3, h4, h5, h6, h7, h8, h9⟩ := h
  simp only [isoformat, isoChars, pad2, List.cons_append, List.nil_append]
  simp only [fromisoformat]
  rw [parse2_pad2 (y / 100) (by omega), parse2_pad2 (y % 100) (by omega),
      parse2_pad2 m (by omega),
      parse2_pad2 d (by have := daysInMonth_le y m; omega),
      parse2_pad2 hh (by omega), parse2_pad2 mi (by omega),
      parse2_pad2 s (by omega)]
  have hy : y / 100 * 100 + y % 100 = y := by omega
  simp only [Option.bind_eq_bind, Option.some_bind, hy, mkDatetime]
  rw [if_pos]
  exact ⟨h1, h2, h3, h4, h5, h6, h7, h8, h9⟩

/-- Running the crawl loop across `k` pages that neither are empty nor hit
the end-page check appends those pages' records in fetch order. -/
lemma crawl_loop_append (fetch : Nat → List Image) (endp : Option Nat) :
    ∀ (k fuel page : Nat) (acc : List Image),
    (∀ p, page ≤ p → p < page + k →
      (fetch p).isEmpty = false ∧ end_page_hit endp p = false) →
    crawl_loop fetch endp (fuel + k) page acc =
      crawl_loop fetch endp fuel (page + k)
        (acc ++ ((List.range' page k).map fetch).flatten) := by
  intro k
  induction k with
  | zero => intro fuel page acc _; simp
  | succ k ih =>
      intro fuel page acc hok
      have hpage := hok page (Nat.le_refl _) (by omega)
      have hstep : fuel + (k + 1) = (fuel + k) + 1 := by omega
      rw [hstep]
      show (if (fetch page).isEmpty then some acc
            else if end_page_hit endp page then some acc
            else crawl_loop fetch endp (fuel + k) (page + 1) (acc ++ fetch page)) = _
      rw [hpage.1, hpage.2]
      simp only [Bool.false_eq_true, if_false]
      rw [ih fuel (page + 1) (acc ++ fetch page)
            (fun p hp1 hp2 => hok p (by omega) (by omega))]
      have harith : page + 1 + k = page + (k + 1) := by omega
      rw [harith, List.range'_succ _ _ _]
      simp [List.append_assoc]

lemma pyListLt_cons_same (c : Char) (r1 r2 : List Char) :
    pyListLt (c :: r1) (c :: r2) = pyListLt r1 r2 := by
  cases r2 with
  | nil =>
      cases r1 <;> simp [pyListLt, pyCharLt]
  | cons b bs =>
      simp [pyListLt, pyCharLt]

lemma pyListLt_pad2_append (x y : Nat) (r1 r2 : List Char) :
    pyListLt (pad2 x ++ r1) (pad2 y ++ r2) =
      (pyListLt (pad2 x) (pad2 y) || (pad2 x == pad2 y && pyListLt r1 r2)) := by
  simp only [pad2, List.cons_append, List.nil_append, pyListLt]
  cases h1 : pyCharLt (Nat.digitChar (x / 10)) (Nat.digitChar (y / 10)) <;>
    cases h2 : Nat.digitChar (x / 10) == Nat.digitChar (y / 10) <;>
    cases h3 : pyCharLt (Nat.digitChar (x % 10)) (Nat.digitChar (y % 10)) <;>
    cases h4 : Nat.digitChar (x % 10) == Nat.digitChar (y % 10) <;>
    simp_all [pyListLt, beq_iff_eq]

lemma digitChar_lt : ∀ a < 10, ∀ b < 10,
    pyCharLt (Nat.digitChar a) (Nat.digitChar b) = Nat.blt a b := by decide

lemma digitChar_beq : ∀ a < 10, ∀ b < 10,
    (Nat.digitChar a == Nat.digitChar b) = (a == b) := by decide

lemma digitChar_inj : ∀ a < 10, ∀ b < 10,
    (Nat.digitChar a = Nat.digitChar b) ↔ a = b := by decide

lemma pad2_lt (a b : Nat) (ha : a < 100) (hb : b < 100) :
    pyListLt (pad2 a) (pad2 b) = Nat.blt a b := by
  simp only [pad2, pyListLt]
  rw [digitChar_lt _ (by omega) _ (by omega), digitChar_beq _ (by omega) _ (by omega),
      digitChar_lt _ (by omega) _ (by omega), digitChar_beq _ (by omega) _ (by omega)]
  rw [Bool.eq_iff_iff]
  simp [Nat.blt_eq]
  omega

lemma pad2_beq (a b : Nat) (ha : a < 100) (hb : b < 100) :
    (pad2 a == pad2 b) = (a == b) := by
  rw [Bool.eq_iff_iff, beq_iff_eq, beq_iff_eq]
  simp only [pad2, List.cons.injEq, and_true]
  rw [digitChar_inj _ (by omega) _ (by omega), digitChar_inj _ (by omega) _ (by omega)]
  omega

lemma blt_self_false (n : Nat) : n.blt n = false := by
  rw [Bool.eq_false_iff, ne_eq, Nat.blt_eq]
  omega

lemma dtLt_iff (a b : PyDatetime) : dtLt a b = true ↔
    (a.year < b.year ∨ (a.year = b.year ∧
      (a.month < b.month ∨ (a.month = b.month ∧
        (a.day < b.day ∨ (a.day = b.day ∧
          (a.hour < b.hour ∨ (a.hour = b.hour ∧
            (a.minute < b.minute ∨ (a.minute = b.minute ∧
              a.second < b.second)))))))))) := by
  simp [dtLt, Nat.blt_eq]

lemma dtLt_irrefl (a : PyDatetime) : dtLt a a = false := by
  simp [dtLt, blt_self_false]

lemma dtLt_trans (a b c : PyDatetime)
    (h1 : dtLt a b = true) (h2 : dtLt b c = true) : dtLt a c = true := by
  rw [dtLt_iff] at h1 h2 ⊢
  omega

lemma dtLt_negtrans (a b c : PyDatetime)
    (h1 : dtLt a b = false) (h2 : dtLt b c = false) : dtLt a c = false := by
  rw [Bool.eq_false_iff, ne_eq, dtLt_iff] at h1 h2 ⊢
  omega

/-- Lexicographic comparison of `isoformat` strings agrees with
chronological comparison of the underlying valid datetimes (the fixed-width
zero-padded rendering makes string order and date order coincide). -/
lemma pyStrLt_isoformat (a b : PyDatetime) (ha : validDT a) (hb : validDT b) :
    pyStrLt (isoformat a) (isoformat b) = dtLt a b := by
  obtain ⟨y1, m1, d1, h1, n1, s1⟩ := a
  obtain ⟨y2, m2, d2, h2, n2, s2⟩ := b
  simp only [validDT] at ha hb
  obtain ⟨a1, a2, a3, a4, a5, a6, a7, a8, a9⟩ := ha
  obtain ⟨b1, b2, b3, b4, b5, b6, b7, b8, b9⟩ := hb
  have hd1 : daysInMonth y1 m1 ≤ 31 := daysInMonth_le y1 m1
  have hd2 : daysInMonth y2 m2 ≤ 31 := daysInMonth_le y2 m2
  simp only [pyStrLt, isoformat, isoChars]
  rw [pyListLt_pad2_append, pyListLt_pad2_append, pyListLt_cons_same,
      pyListLt_pad2_append, pyListLt_cons_same, pyListLt_pad2_append,
      pyListLt_cons_same, pyListLt_pad2_append, pyListLt_cons_same,
      pyListLt_pad2_append, pyListLt_cons_same]
  rw [pad2_lt (y1 / 100) (y2 / 100) (by omega) (by omega),
      pad2_beq (y1 / 100) (y2 / 100) (by omega) (by omega),
      pad2_lt (y1 % 100) (y2 % 100) (by omega) (by omega),
      pad2_beq (y1 % 100) (y2 % 100) (by omega) (by omega),
      pad2_lt m1 m2 (by omega) (by omega),
      pad2_beq m1 m2 (by omega) (by omega),
      pad2_lt d1 d2 (by omega) (by omega),
      pad2_beq d1 d2 (by omega) (by omega),
      pad2_lt h1 h2 (by omega) (by omega),
      pad2_beq h1 h2 (by omega) (by omega),
      pad2_lt n1 n2 (by omega) (by omega),
      pad2_beq n1 n2 (by omega) (by omega),
      pad2_lt s1 s2 (by omega) (by omega)]
  rw [Bool.eq_iff_iff]
  simp only [dtLt, Bool.or_eq_true, Bool.and_eq_true, Nat.blt_eq, beq_iff_eq]
  omega

lemma from_json_to_json (i : Image) (h : validDT i.date) :
    Image.from_json (Image.to_json i) = some i := by
  simp [Image.from_json, Image.to_json, fromisoformat_isoformat i.date h]

lemma mapM_from_json (l : List Image) (h : ∀ i ∈ l, validDT i.date) :
    (l.map Image.to_json).mapM Image.from_json = some l := by
  induction l with
  | nil => rfl
  | cons i is ih =>
      simp only [List.map_cons, List.mapM_cons]
      rw [from_json_to_json i (h i (by simp))]
      rw [ih (fun j hj => h j (by simp [hj]))]
      rfl

lemma foldl_min_mem (lt : α → α → Bool) :
    ∀ (xs : List α) (x : α),
      xs.foldl (fun best y => if lt y best then y else best) x ∈ x :: xs := by
  intro xs
  induction xs with
  | nil => intro x; simp
  | cons y ys ih =>
      intro x
      simp only [List.foldl]
      rcases List.mem_cons.mp (ih (if lt y x then y else x)) with h | h
      · rw [h]
        cases hl : lt y x <;> simp [hl]
      · simp [List.mem_cons_of_mem, h]

/-- The Python `min` fold produces an element no other list element is
strictly below, given a strict-order comparison. -/
lemma foldl_min_not_lt (lt : α → α → Bool)
    (htr : ∀ a b c, lt a b = true → lt b c = true → lt a c = true)
    (hneg : ∀ a b c, lt a b = false → lt b c = false → lt a c = false)
    (hirr : ∀ a, lt a a = false) :
    ∀ (xs : List α) (x z : α), z ∈ x :: xs →
      lt z (xs.foldl (fun best y => if lt y best then y else best) x) = false := by
  intro xs
  induction xs with
  | nil =>
      intro x z hz
      simp at hz
      subst hz
      exact hirr _
  | cons y ys ih =>
      intro x z hz
      simp only [List.foldl]
      by_cases hyx : lt y x = true
      · rw [if_pos hyx]
        rcases List.mem_cons.mp hz with rfl | hz'
        · cases hzm : lt z (ys.foldl (fun best y => if lt y best then y else best) y) with
          | false => rfl
          | true =>
              have hym := ih y y (List.mem_cons_self _ _)
              have := htr y z _ hyx hzm
              rw [this] at hym
              exact absurd hym (by simp)
        · rcases List.mem_cons.mp hz' with rfl | hz''
          · exact ih z z (List.mem_cons_self _ _)
          · exact ih y z (List.mem_cons_of_mem _ hz'')
      · have hyx' : lt y x = false := by
          cases h : lt y x
          · rfl
          · exact absurd h hyx
        rw [if_neg (by rw [hyx']; simp)]
        rcases List.mem_cons.mp hz with rfl | hz'
        · exact ih z z (List.mem_cons_self _ _)
        · rcases List.mem_cons.mp hz' with rfl | hz''
          · exact hneg z x _ hyx' (ih x x (List.mem_cons_self _ _))
          · exact ih x z (List.mem_cons_of_mem _ hz'')

/-- The Python `min` fold commutes with mapping an order-preserving
function over the list. -/
lemma foldl_min_map (lt1 : α → α → Bool) (lt2 : β → β → Bool) (f : α → β) :
    ∀ (l : List α) (x : α),
      (∀ a ∈ x :: l, ∀ b ∈ x :: l, lt2 (f a) (f b) = lt1 a b) →
      (l.map f).foldl (fun best y => if lt2 y best then y else best) (f x) =
        f (l.foldl (fun best y => if lt1 y best then y else best) x) := by
  intro l
  induction l with
  | nil => intro x _; rfl
  | cons y ys ih =>
      intro x hag
      simp only [List.map_cons, List.foldl]
      rw [hag y (by simp) x (by simp)]
      have hstep : (if lt1 y x then f y else f x) = f (if lt1 y x then y else x) := by
        cases h : lt1 y x <;> simp
      rw [hstep]
      apply ih
      intro a haa b hbb
      have hmem : ∀ c, c ∈ (if lt1 y x then y else x) :: ys → c ∈ x :: y :: ys := by
        intro c hc
        rcases List.mem_cons.mp hc with hceq | hc'
        · subst hceq
          cases hl : lt1 y x <;> simp [hl]
        · simp [hc']
      exact hag a (hmem a haa) b (hmem b hbb)

lemma mem_pathPrefixes_self (p : PyPath) (h : p ≠ []) : p ∈ pathPrefixes p := by
  unfold pathPrefixes
  refine List.mem_map.mpr ⟨p.length - 1, ?_, ?_⟩
  · have : 1 ≤ p.length := List.length_pos.mpr h
    simp [List.mem_range]
    omega
  · have : 1 ≤ p.length := List.length_pos.mpr h
    rw [Nat.sub_add_cancel this, List.take_length]

lemma mem_mkdir_p_dirs (fs : FS) (p : PyPath) (h : p ≠ []) :
    p ∈ (mkdir_p fs p).dirs := by
  unfold mkdir_p
  simp only
  by_cases hp : p ∈ fs.dirs
  · exact List.mem_append_left _ hp
  · exact List.mem_append_right _
      (List.mem_filter.mpr ⟨mem_pathPrefixes_self p h, by simp [hp]⟩)

/-- `mkdir(parents=True, exist_ok=True)` is idempotent on the filesystem
state. -/
lemma mkdir_p_idem (fs : FS) (p : PyPath) :
    mkdir_p (mkdir_p fs p) p = mkdir_p fs p := by
  unfold mkdir_p
  simp only
  have hall : ∀ q ∈ pathPrefixes p,
      q ∈ fs.dirs ++ (pathPrefixes p).filter fun r => decide (r ∉ fs.dirs) := by
    intro q hq
    by_cases hqd : q ∈ fs.dirs
    · exact List.mem_append_left _ hqd
    · exact List.mem_append_right _ (List.mem_filter.mpr ⟨hq, by simp [hqd]⟩)
  have hfilter : (pathPrefixes p).filter
      (fun q => decide (q ∉ fs.dirs ++ (pathPrefixes p).filter fun r => decide (r ∉ fs.dirs))) = [] := by
    rw [List.filter_eq_nil_iff]
    intro q hq
    simp only [decide_eq_true_eq, not_not]
    exact hall q hq
  rw [hfilter, List.append_nil]

lemma os_utime_dirs (fs : FS) (p : PyPath) (t : Int) (fs' : FS)
    (h : os_utime fs p t = some fs') : fs'.dirs = fs.dirs := by
  unfold os_utime at h
  split at h
  · simp only [Option.some.injEq] at h
    subst h
    rfl
  · split at h
    · simp only [Option.some.injEq] at h
      subst h
      rfl
    · exact absurd h (by simp)

lemma download_image_failed (image : Image) (flatten : Bool) (status : Nat)
    (now : Int) (fs : FS) (h : status ≠ 200) :
    download_image image flatten status now fs = (fs, .failed image.name status) := by
  simp [download_image, h]

/-! ## The claims -/

/-- Claim C1: for every fetcher behaviour where pages `start..k` are
non-empty and page `k+1` yields no table, `crawl(start, end=None)` returns
exactly the concatenation of the records of pages `start..k` in fetch
order, stopping at the first empty page without including it; and a page
whose HTML has no table element yields an empty sequence, not an error. -/
theorem C1_crawl_stops_at_first_empty_page
    (fetch : Nat → List Image) (start k fuel : Nat)
    (hne : ∀ p, start ≤ p → p ≤ k → fetch p ≠ [])
    (hempty : fetch (k + 1) = [])
    (hstart : start ≤ k + 1)
    (hfuel : k + 2 - start ≤ fuel) :
    crawl fetch start none fuel =
      some (((List.range' start (k + 1 - start)).map fetch).flatten) ∧
    (∀ soup : Soup, soup.table = none → fetch_page_parse soup = some []) := by
  constructor
  · unfold crawl
    obtain ⟨fuel', rfl⟩ : ∃ f, fuel = f + (k + 1 - start) :=
      ⟨fuel - (k + 1 - start), by omega⟩
    rw [crawl_loop_append fetch none (k + 1 - start) fuel' start []
        (fun p hp1 hp2 => by
          refine ⟨?_, rfl⟩
          have := hne p hp1 (by omega)
          cases hfp : fetch p with
          | nil => exact absurd hfp this
          | cons a l => simp)]
    have hs : start + (k + 1 - start) = k + 1 := by omega
    rw [hs]
    obtain ⟨f2, rfl⟩ : ∃ f2, fuel' = f2 + 1 := ⟨fuel' - 1, by omega⟩
    simp only [crawl_loop, hempty]
    simp
  · intro soup hs
    simp [fetch_page_parse, hs]

/-- Witness for C1: a fetcher with non-empty pages 1–3 and empty page 4
crawled from page 1 with no end page yields pages 1–3's records in order. -/
theorem C1_witness :
    crawl (fun p => if 1 ≤ p ∧ p ≤ 3 then [⟨⟨2023, 1, 1, 0, 0, 0⟩, Nat.repr p, "L"⟩] else [])
        1 none 5 =
      some [⟨⟨2023, 1, 1, 0, 0, 0⟩, "1", "L"⟩, ⟨⟨2023, 1, 1, 0, 0, 0⟩, "2", "L"⟩,
            ⟨⟨2023, 1, 1, 0, 0, 0⟩, "3", "L"⟩] := by
  have h := (C1_crawl_stops_at_first_empty_page
      (fun p => if 1 ≤ p ∧ p ≤ 3 then [⟨⟨2023, 1, 1, 0, 0, 0⟩, Nat.repr p, "L"⟩] else [])
      1 3 5
      (fun p h1 h2 => by simp [h1, h2])
      (by decide) (by omega) (by omega)).1
  rw [h]
  decide

/-- Claim C2: with an explicit end page `E` (and non-empty pages), the
crawl loop stops after fetching page `E`, and page `E`'s records are not
appended: the result is the concatenation of pages `start..E-1` only. -/
theorem C2_crawl_end_page_discards_end_page
    (fetch : Nat → List Image) (start E fuel : Nat)
    (hne : ∀ p, fetch p ≠ [])
    (hE : 1 ≤ E) (hstart : start ≤ E)
    (hfuel : E + 1 - start ≤ fuel) :
    crawl fetch start (some E) fuel =
      some (((List.range' start (E - start)).map fetch).flatten) := by
  unfold crawl
  obtain ⟨fuel', rfl⟩ : ∃ f, fuel = f + (E - start) :=
    ⟨fuel - (E - start), by omega⟩
  rw [crawl_loop_append fetch (some E) (E - start) fuel' start []
      (fun p hp1 hp2 => by
        refine ⟨?_, ?_⟩
        · have := hne p
          cases hfp : fetch p with
          | nil => exact absurd hfp this
          | cons a l => simp
        · simp only [end_page_hit, Bool.and_eq_false_iff]
          right
          simp
          omega)]
  have hs : start + (E - start) = E := by omega
  rw [hs]
  obtain ⟨f2, rfl⟩ : ∃ f2, fuel' = f2 + 1 := ⟨fuel' - 1, by omega⟩
  simp only [crawl_loop]
  have h1 : (fetch E).isEmpty = false := by
    have := hne E
    cases hfp : fetch E with
    | nil => exact absurd hfp this
    | cons a l => simp
  have h2 : end_page_hit (some E) E = true := by
    simp [end_page_hit]
    omega
  rw [h1, h2]
  simp

/-- Witness for C2: over all-non-empty pages, `crawl(start=1, end=3)`
returns only pages 1–2's records. -/
theorem C2_witness :
    crawl (fun p => [⟨⟨2023, 1, 1, 0, 0, 0⟩, Nat.repr p, "L"⟩]) 1 (some 3) 5 =
      some [⟨⟨2023, 1, 1, 0, 0, 0⟩, "1", "L"⟩, ⟨⟨2023, 1, 1, 0, 0, 0⟩, "2", "L"⟩] := by
  have h := C2_crawl_end_page_discards_end_page
      (fun p => [⟨⟨2023, 1, 1, 0, 0, 0⟩, Nat.repr p, "L"⟩]) 1 3 5
      (fun p => by simp) (by omega) (by omega) (by omega)
  rw [h]
  decide

/-- Counterexample to claim C3: on a valid Record JSON object whose `date`
is the ISO calendar date `"2023-01-15"`, parsing succeeds but serializing
the result yields `"2023-01-15T00:00:00"` — `datetime.isoformat()` always
appends the time part — so `serialize(parse(json)) ≠ json`. -/
theorem C3_counterexample :
    Image.from_json ⟨"2023-01-15", "photo.jpg", "L"⟩ =
        some ⟨⟨2023, 1, 15, 0, 0, 0⟩, "photo.jpg", "L"⟩ ∧
    (Image.from_json ⟨"2023-01-15", "photo.jpg", "L"⟩).map Image.to_json =
        some ⟨"2023-01-15T00:00:00", "photo.jpg", "L"⟩ ∧
    (⟨"2023-01-15T00:00:00", "photo.jpg", "L"⟩ : ImageJson) ≠
        ⟨"2023-01-15", "photo.jpg", "L"⟩ := by
  refine ⟨by decide, by decide, by decide⟩

/-- Claim C3 as amended: `parse(serialize(record)) = record` for every
record with a valid datetime, and `serialize(parse(json)) = json` for
Record JSON whose `date` field is a full ISO datetime string as produced
by serialization; `name` and `link` pass through unchanged. -/
theorem C3_roundtrip_amended :
    (∀ i : Image, validDT i.date →
      Image.from_json (Image.to_json i) = some i) ∧
    (∀ (j : ImageJson) (dt : PyDatetime), validDT dt → j.date = isoformat dt →
      (Image.from_json j).map Image.to_json = some j) := by
  constructor
  · intro i h
    simp [Image.from_json, Image.to_json, fromisoformat_isoformat i.date h]
  · intro j dt h hdate
    simp [Image.from_json, hdate, fromisoformat_isoformat dt h, Image.to_json]
    cases j
    simp_all

/-- Witness for the amended C3 at a concrete record. -/
theorem C3_roundtrip_witness :
    Image.from_json (Image.to_json ⟨⟨2023, 1, 15, 0, 0, 0⟩, "photo.jpg", "L"⟩) =
      some ⟨⟨2023, 1, 15, 0, 0, 0⟩, "photo.jpg", "L"⟩ :=
  C3_roundtrip_amended.1 ⟨⟨2023, 1, 15, 0, 0, 0⟩, "photo.jpg", "L"⟩ (by decide)

/-- Claim C4: the destination path is `root/name` when flattened and
`root/str(year)/str(month)/name` (unpadded decimal year and month)
otherwise; in particular a record dated 2023-01-15 named `photo.jpg`
yields `downloads/2023/1/photo.jpg` partitioned and `downloads/photo.jpg`
flattened. -/
theorem C4_destination_path :
    (∀ i : Image,
      download_dest i true = [IMAGE_DIR, i.name] ∧
      download_dest i false =
        [IMAGE_DIR, Nat.repr i.date.year, Nat.repr i.date.month, i.name]) ∧
    download_dest ⟨⟨2023, 1, 15, 0, 0, 0⟩, "photo.jpg", "L"⟩ false =
      ["downloads", "2023", "1", "photo.jpg"] ∧
    download_dest ⟨⟨2023, 1, 15, 0, 0, 0⟩, "photo.jpg", "L"⟩ true =
      ["downloads", "photo.jpg"] := by
  refine ⟨fun i => ⟨rfl, rfl⟩, by decide, by decide⟩

/-- Claim C5 evaluated at its failing input: with `flatten=true` the file
is written at `downloads/photo.jpg` and keeps the wall-clock timestamps,
while `os.utime` is applied to the partitioned path `image.filename` and
raises `FileNotFoundError`; with `flatten=false` the same record's
timestamps are restored to the date's epoch value. -/
theorem C5_flatten_timestamps_not_restored :
    (download_image ⟨⟨2023, 1, 15, 0, 0, 0⟩, "photo.jpg", "L"⟩ true 200 7 ⟨[], []⟩).2 =
        DlOutcome.raised "FileNotFoundError" ∧
    (download_image ⟨⟨2023, 1, 15, 0, 0, 0⟩, "photo.jpg", "L"⟩ true 200 7 ⟨[], []⟩).1.files =
        [(["downloads", "photo.jpg"], 7, 7)] ∧
    pyTimestamp ⟨2023, 1, 15, 0, 0, 0⟩ = 1673740800 ∧
    (download_image ⟨⟨2023, 1, 15, 0, 0, 0⟩, "photo.jpg", "L"⟩ false 200 7 ⟨[], []⟩).2 =
        DlOutcome.ok ∧
    (download_image ⟨⟨2023, 1, 15, 0, 0, 0⟩, "photo.jpg", "L"⟩ false 200 7 ⟨[], []⟩).1.files =
        [(["downloads", "2023", "1", "photo.jpg"], 1673740800, 1673740800)] := by
  refine ⟨by decide, by decide, by decide, by decide, by decide⟩

/-- Claim C6's counterexample: at `page_number = 1` — the default first
page — the `page` query parameter is included, not omitted (`if page_num:`
only omits it for a falsy page number). -/
theorem C6_counterexample :
    fetch_params 1 = [("page", 1)] ∧ fetch_params 1 ≠ [] := by
  refine ⟨by decide, by decide⟩

/-- Claim C6 as amended: `fetch_page` omits the `page` query parameter
exactly when `page_number` is falsy (0), and includes `page=<n>` for every
non-zero page number, page 1 included. -/
theorem C6_page_param_amended :
    ∀ n : Nat, (fetch_params n = [] ↔ n = 0) ∧
      (n ≠ 0 → fetch_params n = [("page", n)]) := by
  intro n
  unfold fetch_params
  by_cases h : n = 0 <;> simp [h]

/-- Witness for the amended C6 at page 2. -/
theorem C6_witness : fetch_params 2 = [("page", 2)] :=
  (C6_page_param_amended 2).2 (by decide)

/-- Claim C7: writing an index from an empty record collection fails with
the empty-index error (Python: `min([])` raises `ValueError` before any
index content is produced). -/
theorem C7_empty_index_error :
    write_index [] = .error IndexError.emptyIndex := by
  rfl

/-- Claim C8: for every non-empty record list with valid dates, writing
the index succeeds, reading it back yields the same records, and the
written `earliest`/`latest` fields are the ISO renderings of a true
minimum and a true maximum of the records' dates, recomputed at write
time. -/
theorem C8_index_roundtrip (img0 : Image) (rest : List Image)
    (hvalid : ∀ i ∈ img0 :: rest, validDT i.date) :
    ∃ (idx : IndexJson) (dmin dmax : PyDatetime),
      write_index (img0 :: rest) = .ok idx ∧
      read_index_images idx = some (img0 :: rest) ∧
      idx.earliest = isoformat dmin ∧
      dmin ∈ (img0 :: rest).map Image.date ∧
      (∀ d ∈ (img0 :: rest).map Image.date, dtLt d dmin = false) ∧
      idx.latest = isoformat dmax ∧
      dmax ∈ (img0 :: rest).map Image.date ∧
      (∀ d ∈ (img0 :: rest).map Image.date, dtLt dmax d = false) := by
  have hv : ∀ d ∈ img0.date :: rest.map Image.date, validDT d := by
    intro d hd
    rcases List.mem_cons.mp hd with hd' | hd'
    · rw [hd']
      exact hvalid img0 (by simp)
    · rcases List.mem_map.mp hd' with ⟨i, hi, hieq⟩
      rw [← hieq]
      exact hvalid i (by simp [hi])
  have hag : ∀ a ∈ img0.date :: rest.map Image.date,
      ∀ b ∈ img0.date :: rest.map Image.date,
      pyStrLt (isoformat a) (isoformat b) = dtLt a b :=
    fun a haa b hbb => pyStrLt_isoformat a b (hv a haa) (hv b hbb)
  have hagflip : ∀ a ∈ img0.date :: rest.map Image.date,
      ∀ b ∈ img0.date :: rest.map Image.date,
      (fun u v => pyStrLt v u) (isoformat a) (isoformat b) = (fun u v => dtLt v u) a b :=
    fun a haa b hbb => pyStrLt_isoformat b a (hv b hbb) (hv a haa)
  have hmapiso : rest.map (fun i => isoformat i.date) = (rest.map Image.date).map isoformat := by
    simp [List.map_map, Function.comp]
  have hminstr : pyMinBy pyStrLt ((img0 :: rest).map fun i => isoformat i.date) =
      some (isoformat ((rest.map Image.date).foldl
        (fun best y => if dtLt y best then y else best) img0.date)) := by
    simp only [List.map_cons, pyMinBy, hmapiso]
    rw [foldl_min_map dtLt pyStrLt isoformat (rest.map Image.date) img0.date hag]
  have hmaxstr : pyMaxBy pyStrLt ((img0 :: rest).map fun i => isoformat i.date) =
      some (isoformat ((rest.map Image.date).foldl
        (fun best y => if (fun u v => dtLt v u) y best then y else best) img0.date)) := by
    simp only [pyMaxBy, List.map_cons, pyMinBy, hmapiso]
    rw [foldl_min_map (fun u v => dtLt v u) (fun u v => pyStrLt v u) isoformat
        (rest.map Image.date) img0.date hagflip]
  refine ⟨⟨_, _, (img0 :: rest).map Image.to_json⟩,
    (rest.map Image.date).foldl (fun best y => if dtLt y best then y else best) img0.date,
    (rest.map Image.date).foldl (fun best y => if (fun u v => dtLt v u) y best then y else best) img0.date,
    ?_, ?_, rfl, ?_, ?_, rfl, ?_, ?_⟩
  · simp only [write_index, hminstr, hmaxstr]
    rfl
  · exact mapM_from_json _ hvalid
  · have := foldl_min_mem dtLt (rest.map Image.date) img0.date
    simpa using this
  · intro d hd
    exact foldl_min_not_lt dtLt dtLt_trans dtLt_negtrans dtLt_irrefl
      (rest.map Image.date) img0.date d (by simpa using hd)
  · have := foldl_min_mem (fun u v => dtLt v u) (rest.map Image.date) img0.date
    simpa using this
  · intro d hd
    have := foldl_min_not_lt (fun u v => dtLt v u)
      (fun a b c h1 h2 => dtLt_trans c b a h2 h1)
      (fun a b c h1 h2 => dtLt_negtrans c b a h2 h1)
      dtLt_irrefl
      (rest.map Image.date) img0.date d (by simpa using hd)
    simpa using this

/-- Witness for C8 at three concrete records. -/
theorem C8_witness :
    ∃ (idx : IndexJson) (dmin dmax : PyDatetime),
      write_index [⟨⟨2023, 5, 2, 0, 0, 0⟩, "a.jpg", "La"⟩,
                   ⟨⟨2021, 12, 31, 0, 0, 0⟩, "b.jpg", "Lb"⟩,
                   ⟨⟨2022, 7, 4, 0, 0, 0⟩, "c.jpg", "Lc"⟩] = .ok idx ∧
      read_index_images idx =
        some [⟨⟨2023, 5, 2, 0, 0, 0⟩, "a.jpg", "La"⟩,
              ⟨⟨2021, 12, 31, 0, 0, 0⟩, "b.jpg", "Lb"⟩,
              ⟨⟨2022, 7, 4, 0, 0, 0⟩, "c.jpg", "Lc"⟩] ∧
      idx.earliest = isoformat dmin ∧
      dmin ∈ ([⟨⟨2023, 5, 2, 0, 0, 0⟩, "a.jpg", "La"⟩,
               ⟨⟨2021, 12, 31, 0, 0, 0⟩, "b.jpg", "Lb"⟩,
               ⟨⟨2022, 7, 4, 0, 0, 0⟩, "c.jpg", "Lc"⟩] : List Image).map Image.date ∧
      (∀ d ∈ ([⟨⟨2023, 5, 2, 0, 0, 0⟩, "a.jpg", "La"⟩,
               ⟨⟨2021, 12, 31, 0, 0, 0⟩, "b.jpg", "Lb"⟩,
               ⟨⟨2022, 7, 4, 0, 0, 0⟩, "c.jpg", "Lc"⟩] : List Image).map Image.date,
        dtLt d dmin = false) ∧
      idx.latest = isoformat dmax ∧
      dmax ∈ ([⟨⟨2023, 5, 2, 0, 0, 0⟩, "a.jpg", "La"⟩,
               ⟨⟨2021, 12, 31, 0, 0, 0⟩, "b.jpg", "Lb"⟩,
               ⟨⟨2022, 7, 4, 0, 0, 0⟩, "c.jpg", "Lc"⟩] : List Image).map Image.date ∧
      (∀ d ∈ ([⟨⟨2023, 5, 2, 0, 0, 0⟩, "a.jpg", "La"⟩,
               ⟨⟨2021, 12, 31, 0, 0, 0⟩, "b.jpg", "Lb"⟩,
               ⟨⟨2022, 7, 4, 0, 0, 0⟩, "c.jpg", "Lc"⟩] : List Image).map Image.date,
        dtLt dmax d = false) :=
  C8_index_roundtrip ⟨⟨2023, 5, 2, 0, 0, 0⟩, "a.jpg", "La"⟩
    [⟨⟨2021, 12, 31, 0, 0, 0⟩, "b.jpg", "Lb"⟩, ⟨⟨2022, 7, 4, 0, 0, 0⟩, "c.jpg", "Lc"⟩]
    (by decide)

/-- Claim C9: a per-item download whose GET returns a non-success status
contributes exactly a failure outcome (no exception, a single outcome —
no retry), leaves the filesystem untouched, and the remaining items are
processed exactly as if the failed item were absent. -/
theorem C9_failed_item_is_isolated
    (pre post : List (Image × Nat)) (image : Image) (status : Nat)
    (flatten : Bool) (now : Int) (fs : FS)
    (hstatus : status ≠ 200) :
    download_images (pre ++ (image, status) :: post) flatten now fs =
      ((download_images post flatten now (download_images pre flatten now fs).1).1,
       (download_images pre flatten now fs).2 ++
         DlOutcome.failed image.name status ::
         (download_images post flatten now (download_images pre flatten now fs).1).2) := by
  induction pre generalizing fs with
  | nil =>
      simp [download_images, download_image_failed image flatten status now fs hstatus]
  | cons head tail ih =>
      obtain ⟨i0, s0⟩ := head
      simp only [List.cons_append, download_images]
      rw [show tail.append ((image, status) :: post) = tail ++ (image, status) :: post
            from rfl, ih]

/-- Witness for C9: a 404 item between two 200 items yields outcomes
`[ok, failed, ok]` — the failure does not prevent its neighbours from
succeeding. -/
theorem C9_witness :
    (download_images ([(⟨⟨2023, 1, 15, 0, 0, 0⟩, "a.jpg", "La"⟩, 200)] ++
        (⟨⟨2023, 2, 1, 0, 0, 0⟩, "c.jpg", "Lc"⟩, 404) ::
        [(⟨⟨2023, 3, 2, 0, 0, 0⟩, "b.jpg", "Lb"⟩, 200)]) false 7 ⟨[], []⟩).2 =
      [DlOutcome.ok, DlOutcome.failed "c.jpg" 404, DlOutcome.ok] := by
  have h := C9_failed_item_is_isolated
      [(⟨⟨2023, 1, 15, 0, 0, 0⟩, "a.jpg", "La"⟩, 200)]
      [(⟨⟨2023, 3, 2, 0, 0, 0⟩, "b.jpg", "Lb"⟩, 200)]
      ⟨⟨2023, 2, 1, 0, 0, 0⟩, "c.jpg", "Lc"⟩ 404 false 7 ⟨[], []⟩ (by decide)
  rw [h]
  decide

/-- Claim C10: a per-item download with a successful GET creates the
date-partitioned directory `<root>/<year>/<month>` as a side effect for
both values of `flatten` (the `mkdir` call is unconditional), and the
directory creation is idempotent. -/
theorem C10_partition_dir_created
    (image : Image) (flatten : Bool) (status : Nat) (now : Int) (fs : FS)
    (hstatus : status = 200) :
    image.path ∈ ((download_image image flatten status now fs).1).dirs ∧
    mkdir_p (mkdir_p fs image.path) image.path = mkdir_p fs image.path := by
  have hnil : image.path ≠ [] := by simp [Image.path]
  refine ⟨?_, mkdir_p_idem fs image.path⟩
  subst hstatus
  simp only [download_image]
  rw [if_neg (by simp)]
  cases hu : os_utime (write_file (mkdir_p fs image.path)
      (download_dest image flatten) now) image.filename (pyTimestamp image.date) with
  | none =>
      simp only [hu]
      exact mem_mkdir_p_dirs fs image.path hnil
  | some fs3 =>
      simp only [hu]
      rw [os_utime_dirs _ _ _ _ hu]
      exact mem_mkdir_p_dirs fs image.path hnil

/-- Witness for C10: with `flatten=true` over an empty filesystem the
partitioned directory `downloads/2023/1` is created even though the file
itself lands directly under the root. -/
theorem C10_witness :
    (⟨⟨2023, 1, 15, 0, 0, 0⟩, "photo.jpg", "L"⟩ : Image).path ∈
      ((download_image ⟨⟨2023, 1, 15, 0, 0, 0⟩, "photo.jpg", "L"⟩ true 200 7 ⟨[], []⟩).1).dirs :=
  (C10_partition_dir_created ⟨⟨2023, 1, 15, 0, 0, 0⟩, "photo.jpg", "L"⟩ true 200 7 ⟨[], []⟩ rfl).1

end Kcdl
